import Mathlib

/-!
Verification of `src/pretalx/api/versions.py`: a versioned serializer
registry and dispatch core.  The Python module is embedded shallowly:

* the version-catalog constants become Lean `String` / `List String`
  definitions with the same names;
* the process-wide dictionary `SERIALIZER_REGISTRY` becomes an
  association list with dictionary semantics (insert replaces the value
  at an existing key in place, otherwise appends);
* the decorator factory `register_serializer` returns a closure whose
  `nonlocal` cells (`versions`, `class_name`) are modelled as an explicit
  `DecoratorState` threaded through `inner_decorator`, which returns the
  decorated class, the updated closure state and the updated registry;
* Python falsiness of the optional arguments (`if not versions`,
  `class_name or cls.__name__`) is modelled exactly: `None`, the empty
  string and the empty list all count as "not supplied";
* `get_serializer_by_version`, which raises `KeyError` on a missing key,
  returns `Except LookupError` with the single error `NotRegistered`.
-/

namespace PretalxVersions

def LEGACY : String := "LEGACY"

def CURRENT_VERSION : String := LEGACY

def DEV_PREVIEW : String := "DEV_PREVIEW"

def DEPRECATED_VERSIONS : List String := []

def CURRENT_VERSIONS : List String := [LEGACY, CURRENT_VERSION, DEV_PREVIEW]

def SUPPORTED_VERSIONS : List String := CURRENT_VERSIONS ++ DEPRECATED_VERSIONS

/-- Mirrors the source: this list only exists for reporting and error
messages, and is not used to provide any functionality. -/
def UNSUPPORTED_VERSIONS : List String := []

/-- A Python class as the registry sees it: its `__name__` and an
identity tag distinguishing distinct classes that share a name. -/
structure PyClass where
  name : String
  id : Nat
  deriving DecidableEq

/-- The registry dictionary, keyed by `(class_name, version)` pairs. -/
abbrev Registry := List ((String × String) × PyClass)

/-- Mirrors `SERIALIZER_REGISTRY = {}`: the registry starts empty. -/
def SERIALIZER_REGISTRY : Registry := []

/-- Dictionary assignment `d[k] = v`: replace the value at an existing
key in place, otherwise append the new entry. -/
def dictInsert : Registry → (String × String) → PyClass → Registry
  | [], k, v => [(k, v)]
  | (k', v') :: rest, k, v =>
      if k' = k then (k, v) :: rest else (k', v') :: dictInsert rest k v

/-- Dictionary read `d[k]`, as an `Option`. -/
def dictGet : Registry → (String × String) → Option PyClass
  | [], _ => none
  | (k', v') :: rest, k => if k' = k then some v' else dictGet rest k

/-- The `versions` argument of `register_serializer`: `None`, a single
string, or a list of strings. -/
inductive VersionsArg where
  | vnone
  | vstr (s : String)
  | vlist (l : List String)
  deriving DecidableEq

/-- Python falsiness of the `versions` argument: `None`, `""` and `[]`
are all falsy. -/
def VersionsArg.falsy : VersionsArg → Bool
  | .vnone => true
  | .vstr s => s = ""
  | .vlist l => l.isEmpty

/-- The closure state of one decorator returned by `register_serializer`:
its `nonlocal` cells `versions` and `class_name`. -/
structure DecoratorState where
  versions : VersionsArg
  class_name : Option String
  deriving DecidableEq

/-- `register_serializer(versions=..., class_name=...)` just captures its
arguments in the closure returned; all work happens in `inner_decorator`. -/
def register_serializer (versions : VersionsArg) (class_name : Option String) :
    DecoratorState :=
  ⟨versions, class_name⟩

/-- The version list the decorator body iterates over: `SUPPORTED_VERSIONS`
when `versions` is falsy, a singleton when it is a string, else the list
itself. -/
def effectiveVersions (st : DecoratorState) : List String :=
  if st.versions.falsy then SUPPORTED_VERSIONS
  else
    match st.versions with
    | .vnone => SUPPORTED_VERSIONS
    | .vstr s => [s]
    | .vlist l => l

/-- `class_name = class_name or cls.__name__`: the class's own name when
the argument is `None` or the empty string. -/
def effectiveClassName (st : DecoratorState) (cls : PyClass) : String :=
  match st.class_name with
  | none => cls.name
  | some s => if s = "" then cls.name else s

/-- `for version in versions: SERIALIZER_REGISTRY[class_name, version] = cls`. -/
def writeAll (cname : String) (cls : PyClass) : List String → Registry → Registry
  | [], reg => reg
  | v :: rest, reg => writeAll cname cls rest (dictInsert reg (cname, v) cls)

/-- What one application of the decorator produces: the class handed back,
the updated closure state (the `nonlocal` cells after the body ran), and
the updated registry. -/
structure DecResult where
  result : PyClass
  state : DecoratorState
  registry : Registry

/-- The body of `inner_decorator(cls)`: normalise `versions`, derive
`class_name`, write every `(class_name, version)` entry, return `cls`.
The returned state records the mutated `nonlocal` cells. -/
def inner_decorator (st : DecoratorState) (reg : Registry) (cls : PyClass) :
    DecResult :=
  let versions := effectiveVersions st
  let cname := effectiveClassName st cls
  { result := cls
    state := { versions := .vlist versions, class_name := some cname }
    registry := writeAll cname cls versions reg }

/-- The only failure of the registry: `KeyError` on a missing key. -/
inductive LookupError where
  | NotRegistered
  deriving DecidableEq

/-- `get_serializer_by_version(name, version)`: exact-match dictionary
read, raising (here: returning) `NotRegistered` when the key is absent. -/
def get_serializer_by_version (reg : Registry) (name version : String) :
    Except LookupError PyClass :=
  match dictGet reg (name, version) with
  | some c => .ok c
  | none => .error .NotRegistered

/-- A request as the resolver sees it: it may carry a version token and a
credential, both of which the current implementation ignores. -/
structure Request where
  versionToken : Option String
  credential : Option String

/-- `get_api_version_from_request(request)`: unconditionally `LEGACY`. -/
def get_api_version_from_request (_req : Request) : String := LEGACY

/-- Run a sequence of registrations, each a decorator closure state
applied to a class, threading the registry through. -/
def applyAll (apps : List (DecoratorState × PyClass)) (reg : Registry) :
    Registry :=
  match apps with
  | [] => reg
  | p :: rest => applyAll rest ((inner_decorator p.1 reg p.2).registry)

/-- One decorator application registers something at key `(T, V)` exactly
when its effective class name is `T` and `V` is among its effective
versions. -/
abbrev registersKey (st : DecoratorState) (cls : PyClass) (T V : String) :
    Prop :=
  effectiveClassName st cls = T ∧ V ∈ effectiveVersions st

/-! ## Dictionary lemmas -/

theorem dictGet_dictInsert_self (r : Registry) (k : String × String)
    (v : PyClass) : dictGet (dictInsert r k v) k = some v := by
  induction r with
  | nil => simp [dictInsert, dictGet]
  | cons hd tl ih =>
    obtain ⟨k', v'⟩ := hd
    by_cases h : k' = k
    · simp [dictInsert, dictGet, h]
    · simp [dictInsert, dictGet, h, ih]

theorem dictGet_dictInsert_ne (r : Registry) (k k' : String × String)
    (v : PyClass) (h : k' ≠ k) :
    dictGet (dictInsert r k v) k' = dictGet r k' := by
  induction r with
  | nil => simp [dictInsert, dictGet, Ne.symm h]
  | cons hd tl ih =>
    obtain ⟨a, b⟩ := hd
    by_cases ha : a = k
    · subst ha
      simp [dictInsert, dictGet, Ne.symm h]
    · simp [dictInsert, dictGet, ha, ih]

theorem dictInsert_self_of_get (r : Registry) (k : String × String)
    (v : PyClass) (h : dictGet r k = some v) : dictInsert r k v = r := by
  induction r with
  | nil => simp [dictGet] at h
  | cons hd tl ih =>
    obtain ⟨k', v'⟩ := hd
    by_cases hk : k' = k
    · subst hk
      simp [dictGet] at h
      simp [dictInsert, h]
    · simp [dictGet, hk] at h
      simp [dictInsert, hk, ih h]

/-! ## Lemmas about the registration write loop -/

theorem writeAll_get_preserve (cname : String) (cls : PyClass)
    (vs : List String) (reg : Registry) (k : String × String)
    (h : dictGet reg k = some cls) :
    dictGet (writeAll cname cls vs reg) k = some cls := by
  induction vs generalizing reg with
  | nil => simpa [writeAll] using h
  | cons v rest ih =>
    simp only [writeAll]
    apply ih
    by_cases hk : k = (cname, v)
    · subst hk
      exact dictGet_dictInsert_self reg _ cls
    · rw [dictGet_dictInsert_ne reg _ k cls hk]
      exact h

theorem writeAll_get_mem (cname : String) (cls : PyClass)
    (vs : List String) (reg : Registry) (V : String) (h : V ∈ vs) :
    dictGet (writeAll cname cls vs reg) (cname, V) = some cls := by
  induction vs generalizing reg with
  | nil => simp at h
  | cons v rest ih =>
    simp only [writeAll]
    rcases List.mem_cons.mp h with hv | hv
    · subst hv
      exact writeAll_get_preserve cname cls rest _ _
        (dictGet_dictInsert_self reg _ cls)
    · exact ih _ hv

theorem writeAll_get_notin (cname : String) (cls : PyClass)
    (vs : List String) (reg : Registry) (T V : String)
    (h : ¬(T = cname ∧ V ∈ vs)) :
    dictGet (writeAll cname cls vs reg) (T, V) = dictGet reg (T, V) := by
  induction vs generalizing reg with
  | nil => simp [writeAll]
  | cons v rest ih =>
    simp only [writeAll]
    have hkey : (T, V) ≠ (cname, v) := by
      intro he
      apply h
      refine ⟨congrArg Prod.fst he, ?_⟩
      have hv : V = v := congrArg Prod.snd he
      rw [hv]
      exact List.mem_cons_self v rest
    have hrest : ¬(T = cname ∧ V ∈ rest) := by
      intro ⟨h1, h2⟩
      exact h ⟨h1, List.mem_cons_of_mem _ h2⟩
    rw [ih _ hrest, dictGet_dictInsert_ne reg _ _ cls hkey]

theorem writeAll_id (cname : String) (cls : PyClass) (vs : List String)
    (reg : Registry) (h : ∀ V ∈ vs, dictGet reg (cname, V) = some cls) :
    writeAll cname cls vs reg = reg := by
  induction vs with
  | nil => simp [writeAll]
  | cons v rest ih =>
    simp only [writeAll]
    rw [dictInsert_self_of_get reg _ cls (h v (List.mem_cons_self v rest))]
    exact ih fun V hV => h V (List.mem_cons_of_mem _ hV)

theorem applyAll_get_unregistered (apps : List (DecoratorState × PyClass))
    (reg : Registry) (T V : String)
    (h : ∀ p ∈ apps, ¬ registersKey p.1 p.2 T V) :
    dictGet (applyAll apps reg) (T, V) = dictGet reg (T, V) := by
  induction apps generalizing reg with
  | nil => simp [applyAll]
  | cons p rest ih =>
    simp only [applyAll]
    rw [ih _ fun q hq => h q (List.mem_cons_of_mem _ hq)]
    exact writeAll_get_notin _ p.2 _ reg T V
      fun hc => h p (List.mem_cons_self p rest) ⟨hc.1.symm, hc.2⟩

/-! ## Claim theorems -/

/-- C1: for every resource-type name `T`, every binding (class) and every
version `V` in `supported` (current plus deprecated) at the moment a
registration with no version set is performed for `T`, a subsequent
lookup of `(T, V)` succeeds and returns the registered binding. -/
theorem c1_noversion_registration_covers_supported (r0 : Registry)
    (cn : Option String) (cls : PyClass) (T V : String)
    (hT : effectiveClassName (register_serializer .vnone cn) cls = T)
    (hV : V ∈ SUPPORTED_VERSIONS) :
    get_serializer_by_version
      ((inner_decorator (register_serializer .vnone cn) r0 cls).registry) T V
      = Except.ok cls := by
  subst hT
  simp only [inner_decorator, get_serializer_by_version]
  rw [show effectiveVersions (register_serializer .vnone cn)
        = SUPPORTED_VERSIONS from rfl,
    writeAll_get_mem _ cls _ r0 V hV]

theorem c1_witness :
    "LEGACY" ∈ SUPPORTED_VERSIONS ∧
    get_serializer_by_version
      ((inner_decorator (register_serializer .vnone (some "Talk")) []
        ⟨"X", 0⟩).registry) "Talk" "LEGACY" = Except.ok ⟨"X", 0⟩ :=
  ⟨by decide,
   c1_noversion_registration_covers_supported [] (some "Talk") ⟨"X", 0⟩
     "Talk" "LEGACY" (by decide) (by decide)⟩

/-- C2: for every pair `(T, V)` no registration in the run ever wrote,
lookup on the registry built from the empty `SERIALIZER_REGISTRY` fails
with `NotRegistered`; lookup is exact-match only, with no fallback to any
other version. -/
theorem c2_unregistered_lookup_fails (apps : List (DecoratorState × PyClass))
    (T V : String) (h : ∀ p ∈ apps, ¬ registersKey p.1 p.2 T V) :
    get_serializer_by_version (applyAll apps SERIALIZER_REGISTRY) T V
      = Except.error LookupError.NotRegistered := by
  simp only [get_serializer_by_version]
  rw [applyAll_get_unregistered apps _ T V h]
  rfl

theorem c2_witness :
    (∀ p ∈ [(register_serializer (VersionsArg.vstr "LEGACY") (some "Talk"),
             (⟨"X", 0⟩ : PyClass))],
      ¬ registersKey p.1 p.2 "Talk" "DEV_PREVIEW2") ∧
    get_serializer_by_version
      (applyAll [(register_serializer (VersionsArg.vstr "LEGACY") (some "Talk"),
                  (⟨"X", 0⟩ : PyClass))] SERIALIZER_REGISTRY)
      "Talk" "DEV_PREVIEW2" = Except.error LookupError.NotRegistered :=
  ⟨by decide, c2_unregistered_lookup_fails _ "Talk" "DEV_PREVIEW2" (by decide)⟩

/-- C3: registering `b1` then `b2` at the same key `(T, V)` never errors
and leaves lookup returning `b2` (last-registration-wins), and repeating a
registration with identical arguments leaves the registry in exactly the
same state as performing it once. -/
theorem c3_last_write_wins_and_idempotent (r0 : Registry) (T V : String)
    (b1 b2 : PyClass) (hT : T ≠ "") :
    get_serializer_by_version
      ((inner_decorator (register_serializer (.vlist [V]) (some T))
        ((inner_decorator (register_serializer (.vlist [V]) (some T)) r0
          b1).registry) b2).registry) T V = Except.ok b2
    ∧ ∀ (st : DecoratorState) (c : PyClass) (r : Registry),
        (inner_decorator st ((inner_decorator st r c).registry) c).registry
          = (inner_decorator st r c).registry := by
  constructor
  · simp only [inner_decorator, get_serializer_by_version]
    have hcn : effectiveClassName (register_serializer (.vlist [V]) (some T))
        b2 = T := by
      simp [effectiveClassName, register_serializer, hT]
    rw [hcn, show effectiveVersions (register_serializer (.vlist [V]) (some T))
          = [V] from rfl,
      writeAll_get_mem T b2 [V] _ V (List.mem_cons_self V [])]
  · intro st c r
    simp only [inner_decorator]
    exact writeAll_id _ c _ _ fun W hW => writeAll_get_mem _ c _ r W hW

theorem c3_witness :
    ("Talk" : String) ≠ "" ∧
    get_serializer_by_version
      ((inner_decorator (register_serializer (.vlist ["LEGACY"]) (some "Talk"))
        ((inner_decorator (register_serializer (.vlist ["LEGACY"]) (some "Talk"))
          [] ⟨"A", 1⟩).registry) ⟨"B", 2⟩).registry) "Talk" "LEGACY"
      = Except.ok ⟨"B", 2⟩ :=
  ⟨by decide,
   (c3_last_write_wins_and_idempotent [] "Talk" "LEGACY" ⟨"A", 1⟩ ⟨"B", 2⟩
     (by decide)).1⟩

/-- C4: the `unsupported` set is advisory only: no successful lookup ever
has its version in `UNSUPPORTED_VERSIONS`, and the dispatch version
resolved for a request is never in `UNSUPPORTED_VERSIONS`. -/
theorem c4_unsupported_never_dispatched :
    (∀ (r : Registry) (T V : String) (b : PyClass),
      get_serializer_by_version r T V = Except.ok b →
      V ∉ UNSUPPORTED_VERSIONS)
    ∧ ∀ req : Request,
        get_api_version_from_request req ∉ UNSUPPORTED_VERSIONS := by
  constructor
  · intro r T V b _ hV
    simp [UNSUPPORTED_VERSIONS] at hV
  · intro req hV
    simp [UNSUPPORTED_VERSIONS] at hV

theorem c4_witness :
    get_serializer_by_version [(("Talk", "LEGACY"), ⟨"X", 0⟩)] "Talk"
      "LEGACY" = Except.ok ⟨"X", 0⟩
    ∧ "LEGACY" ∉ UNSUPPORTED_VERSIONS :=
  ⟨rfl,
   c4_unsupported_never_dispatched.1 [(("Talk", "LEGACY"), ⟨"X", 0⟩)]
     "Talk" "LEGACY" ⟨"X", 0⟩ rfl⟩

/-- C5: the version resolver is observably identical to the constant
function returning the fixed legacy default, for every request whatever
version token or credential it carries. -/
theorem c5_resolver_is_constant_legacy :
    get_api_version_from_request = fun _ : Request => LEGACY := rfl

/-- C6: dispatch composes resolution then lookup: for a resource type `T`
registered under the default version and a request carrying no version
token, resolving the version and looking up `(T, resolvedVersion)`
returns the same binding as a direct lookup of `(T, LEGACY)`. -/
theorem c6_dispatch_composes_resolution_and_lookup (r : Registry)
    (T : String) (req : Request) (b : PyClass)
    (hreg : get_serializer_by_version r T LEGACY = Except.ok b)
    (_htok : req.versionToken = none) :
    get_serializer_by_version r T (get_api_version_from_request req)
      = Except.ok b := hreg

theorem c6_witness :
    get_serializer_by_version [(("Submission", "LEGACY"), ⟨"S", 4⟩)]
      "Submission" LEGACY = Except.ok ⟨"S", 4⟩
    ∧ (Request.mk none none).versionToken = none
    ∧ get_serializer_by_version [(("Submission", "LEGACY"), ⟨"S", 4⟩)]
        "Submission" (get_api_version_from_request (Request.mk none none))
        = Except.ok ⟨"S", 4⟩ :=
  ⟨rfl, rfl,
   c6_dispatch_composes_resolution_and_lookup
     [(("Submission", "LEGACY"), ⟨"S", 4⟩)] "Submission"
     (Request.mk none none) ⟨"S", 4⟩ rfl rfl⟩

/-- C7: version resolution always produces exactly one version, and it is
always a member of `supported` (current plus deprecated) and never a
member of `unsupported`, for every request. -/
theorem c7_resolved_version_always_supported (req : Request) :
    get_api_version_from_request req ∈ SUPPORTED_VERSIONS
    ∧ get_api_version_from_request req ∉ UNSUPPORTED_VERSIONS := by
  constructor
  · show LEGACY ∈ SUPPORTED_VERSIONS
    decide
  · show LEGACY ∉ UNSUPPORTED_VERSIONS
    decide

theorem c7_witness :
    get_api_version_from_request
      (Request.mk (some "DEV_PREVIEW") (some "alice")) ∈ SUPPORTED_VERSIONS
    ∧ get_api_version_from_request
        (Request.mk (some "DEV_PREVIEW") (some "alice"))
        ∉ UNSUPPORTED_VERSIONS :=
  c7_resolved_version_always_supported
    (Request.mk (some "DEV_PREVIEW") (some "alice"))

/-- C8: registration never fails and performs no validation against the
version catalog: registering any class under any explicitly supplied
version `V` — including one not in `SUPPORTED_VERSIONS` — creates the
entry, and lookup of `(T, V)` then succeeds. -/
theorem c8_registration_never_validates_catalog (r0 : Registry)
    (T V : String) (cls : PyClass) (hT : T ≠ "") :
    get_serializer_by_version
      ((inner_decorator (register_serializer (.vlist [V]) (some T)) r0
        cls).registry) T V = Except.ok cls := by
  simp only [inner_decorator, get_serializer_by_version]
  have hcn : effectiveClassName (register_serializer (.vlist [V]) (some T))
      cls = T := by
    simp [effectiveClassName, register_serializer, hT]
  rw [hcn, show effectiveVersions (register_serializer (.vlist [V]) (some T))
        = [V] from rfl,
    writeAll_get_mem T cls [V] r0 V (List.mem_cons_self V [])]

theorem c8_witness :
    ("Talk" : String) ≠ "" ∧ "RETIRED_2020" ∉ SUPPORTED_VERSIONS ∧
    get_serializer_by_version
      ((inner_decorator
        (register_serializer (.vlist ["RETIRED_2020"]) (some "Talk")) []
        ⟨"X", 3⟩).registry) "Talk" "RETIRED_2020" = Except.ok ⟨"X", 3⟩ :=
  ⟨by decide, by decide,
   c8_registration_never_validates_catalog [] "Talk" "RETIRED_2020"
     ⟨"X", 3⟩ (by decide)⟩

/-- C9: when no resource-type name is supplied, the registration name is
the class's own declared name: after an unnamed registration of class
`cls` for version `V`, lookup of `(cls.name, V)` succeeds and returns
`cls`. -/
theorem c9_unnamed_registration_uses_own_name (r0 : Registry)
    (cls : PyClass) (V : String) :
    get_serializer_by_version
      ((inner_decorator (register_serializer (.vlist [V]) none) r0
        cls).registry) cls.name V = Except.ok cls := by
  simp only [inner_decorator, get_serializer_by_version]
  rw [show effectiveClassName (register_serializer (.vlist [V]) none) cls
        = cls.name from rfl,
    show effectiveVersions (register_serializer (.vlist [V]) none)
        = [V] from rfl,
    writeAll_get_mem cls.name cls [V] r0 V (List.mem_cons_self V [])]

theorem c9_witness :
    get_serializer_by_version
      ((inner_decorator (register_serializer (.vlist ["LEGACY"]) none) []
        ⟨"Talk", 7⟩).registry) "Talk" "LEGACY" = Except.ok ⟨"Talk", 7⟩ :=
  c9_unnamed_registration_uses_own_name [] ⟨"Talk", 7⟩ "LEGACY"

/-- C10: reusing one decorator value leaks its captured state: applying
the single decorator returned by `register_serializer` (no explicit
class name) first to class `A` and then to class `B` registers `B` under
`A`'s name for every supported version, overwriting `A`'s bindings, and
creates no entry under `B`'s own name. -/
theorem c10_decorator_reuse_leaks_captured_name (A B : PyClass)
    (hA : A.name ≠ "") (hAB : B.name ≠ A.name) :
    (∀ V ∈ SUPPORTED_VERSIONS,
      get_serializer_by_version
        ((inner_decorator
          (inner_decorator (register_serializer .vnone none)
            SERIALIZER_REGISTRY A).state
          (inner_decorator (register_serializer .vnone none)
            SERIALIZER_REGISTRY A).registry B).registry)
        A.name V = Except.ok B)
    ∧ ∀ V : String,
        get_serializer_by_version
          ((inner_decorator
            (inner_decorator (register_serializer .vnone none)
              SERIALIZER_REGISTRY A).state
            (inner_decorator (register_serializer .vnone none)
              SERIALIZER_REGISTRY A).registry B).registry)
          B.name V = Except.error LookupError.NotRegistered := by
  have hst : (inner_decorator (register_serializer .vnone none)
      SERIALIZER_REGISTRY A).state
      = ⟨.vlist SUPPORTED_VERSIONS, some A.name⟩ := rfl
  have hreg1 : (inner_decorator (register_serializer .vnone none)
      SERIALIZER_REGISTRY A).registry
      = writeAll A.name A SUPPORTED_VERSIONS SERIALIZER_REGISTRY := rfl
  have hcn2 : effectiveClassName ⟨.vlist SUPPORTED_VERSIONS, some A.name⟩ B
      = A.name := by
    simp [effectiveClassName, hA]
  have hreg2 : (inner_decorator
      (inner_decorator (register_serializer .vnone none)
        SERIALIZER_REGISTRY A).state
      (inner_decorator (register_serializer .vnone none)
        SERIALIZER_REGISTRY A).registry B).registry
      = writeAll A.name B SUPPORTED_VERSIONS
          (writeAll A.name A SUPPORTED_VERSIONS SERIALIZER_REGISTRY) := by
    rw [hst, hreg1]
    simp only [inner_decorator]
    rw [show effectiveVersions ⟨.vlist SUPPORTED_VERSIONS, some A.name⟩
          = SUPPORTED_VERSIONS from rfl, hcn2]
  constructor
  · intro V hV
    simp only [get_serializer_by_version, hreg2]
    rw [writeAll_get_mem A.name B SUPPORTED_VERSIONS _ V hV]
  · intro V
    simp only [get_serializer_by_version, hreg2]
    rw [writeAll_get_notin _ _ _ _ _ _ fun hc => hAB hc.1,
      writeAll_get_notin _ _ _ _ _ _ fun hc => hAB hc.1]
    rfl

theorem c10_witness :
    (⟨"A", 1⟩ : PyClass).name ≠ "" ∧
    (⟨"B", 2⟩ : PyClass).name ≠ (⟨"A", 1⟩ : PyClass).name ∧
    "LEGACY" ∈ SUPPORTED_VERSIONS ∧
    get_serializer_by_version
      ((inner_decorator
        (inner_decorator (register_serializer .vnone none)
          SERIALIZER_REGISTRY ⟨"A", 1⟩).state
        (inner_decorator (register_serializer .vnone none)
          SERIALIZER_REGISTRY ⟨"A", 1⟩).registry ⟨"B", 2⟩).registry)
      "A" "LEGACY" = Except.ok ⟨"B", 2⟩ ∧
    get_serializer_by_version
      ((inner_decorator
        (inner_decorator (register_serializer .vnone none)
          SERIALIZER_REGISTRY ⟨"A", 1⟩).state
        (inner_decorator (register_serializer .vnone none)
          SERIALIZER_REGISTRY ⟨"A", 1⟩).registry ⟨"B", 2⟩).registry)
      "B" "LEGACY" = Except.error LookupError.NotRegistered :=
  ⟨by decide, by decide, by decide,
   (c10_decorator_reuse_leaks_captured_name ⟨"A", 1⟩ ⟨"B", 2⟩ (by decide)
     (by decide)).1 "LEGACY" (by decide),
   (c10_decorator_reuse_leaks_captured_name ⟨"A", 1⟩ ⟨"B", 2⟩ (by decide)
     (by decide)).2 "LEGACY"⟩

end PretalxVersions
